import Mathlib

/-!
Verification of `true_runtime_profiler.py` (serverless-benchmarks).

The development shallowly embeds the profiler: text is modelled as `List Char`,
Python values exchanged with the workload handler as the mutual inductive
`PyVal`, and the external effects (the strace collector subprocess, the
dynamically loaded handler, signals and timeouts) as explicit environment
data passed to the embedded functions.
-/

/-- Text is modelled as a list of characters (Python `str`). -/
abbrev Str := List Char

/-- Shorthand turning a Lean string literal into the `Str` model. -/
def S (s : String) : Str := s.data

/-! ## Python values

The values that flow between the profiler and a workload handler: `None`,
booleans, integers, strings, dicts with string keys and lists.  Keys are
modelled as strings because every payload in the source uses string keys.
-/

mutual

/-- A Python value as used by the profiler (inputs and handler results). -/
inductive PyVal where
  | none : PyVal
  | bool : Bool → PyVal
  | int : Int → PyVal
  | str : Str → PyVal
  | dict : PyEntries → PyVal
  | list : PyList → PyVal

/-- The entries of a Python dict, in insertion order. -/
inductive PyEntries where
  | nil : PyEntries
  | cons : Str → PyVal → PyEntries → PyEntries

/-- The elements of a Python list. -/
inductive PyList where
  | nil : PyList
  | cons : PyVal → PyList → PyList

end

/-- `true` iff the value is Python `None` (`x is None` test in the source). -/
def isNoneV : PyVal → Bool
  | PyVal.none => true
  | _ => false

/-! ## Python `repr` of a value

Models the builtin `repr` used by the ephemeral spawn-mode script
(`print(repr(result))`, source line 186) on the `PyVal` universe: decimal
integers, `None`/`True`/`False`, single-quoted strings (double-quoted when the
string holds a single quote and no double quote, as CPython does), dicts as
`{'k': v, ...}` and lists as `[v, ...]`.
-/

/-- The decimal digit character for `n % 10`-style values below ten. -/
def digitChar10 (n : Nat) : Char :=
  match n with
  | 0 => '0' | 1 => '1' | 2 => '2' | 3 => '3' | 4 => '4'
  | 5 => '5' | 6 => '6' | 7 => '7' | 8 => '8' | _ => '9'

/-- Decimal representation of a natural number, most significant digit first. -/
def natEnc (n : Nat) : Str :=
  if n < 10 then [digitChar10 n]
  else natEnc (n / 10) ++ [digitChar10 (n % 10)]
  termination_by n
  decreasing_by exact Nat.div_lt_self (by omega) (by omega)

/-- Decimal representation of an integer (Python `repr`/`str` of an `int`). -/
def intEnc (n : Int) : Str :=
  if n < 0 then '-' :: natEnc (-n).toNat else natEnc n.toNat

/-- The quote character CPython `repr` picks for a string. -/
def quoteFor (s : Str) : Char :=
  if s.contains '\'' && !s.contains '"' then '"' else '\''

/-- How one character is rendered inside a quoted `repr` string. -/
def escChar (q c : Char) : Str :=
  if c = '\\' then ['\\', '\\']
  else if c = q then ['\\', q]
  else if c = '\n' then ['\\', 'n']
  else if c = '\r' then ['\\', 'r']
  else if c = '\t' then ['\\', 't']
  else [c]

/-- Escape a whole string body for `repr`. -/
def escList (q : Char) : Str → Str
  | [] => []
  | c :: cs => escChar q c ++ escList q cs

/-- `repr` of a Python string: quote, escaped body, quote. -/
def encStr (s : Str) : Str :=
  quoteFor s :: (escList (quoteFor s) s ++ [quoteFor s])

mutual

/-- `repr` of a `PyVal`. -/
def encVal : PyVal → Str
  | PyVal.none => S "None"
  | PyVal.bool true => S "True"
  | PyVal.bool false => S "False"
  | PyVal.int n => intEnc n
  | PyVal.str s => encStr s
  | PyVal.dict es => '{' :: encE es
  | PyVal.list ls => '[' :: encL ls

/-- `repr` of dict entries, including the closing `}` and `, ` separators. -/
def encE : PyEntries → Str
  | PyEntries.nil => ['}']
  | PyEntries.cons k v rest =>
    encStr k ++ ':' :: ' ' :: encVal v ++
      (match rest with
       | PyEntries.nil => ['}']
       | PyEntries.cons _ _ _ => ',' :: ' ' :: encE rest)

/-- `repr` of list elements, including the closing `]` and `, ` separators. -/
def encL : PyList → Str
  | PyList.nil => [']']
  | PyList.cons v rest =>
    encVal v ++
      (match rest with
       | PyList.nil => [']']
       | PyList.cons _ _ => ',' :: ' ' :: encL rest)

end

/-- Python `str()` of a value as used in f-string reporting: strings print
bare, everything else prints like `repr`. -/
def pyStrOf : PyVal → Str
  | PyVal.str s => s
  | v => encVal v

/-! ## Scope of the string model

`escChar` renders printable ASCII exactly as CPython does; other characters
(for which CPython would emit `\xNN`-style escapes) are passed through
literally.  The round-trip theorems therefore carry a `StrOkV` hypothesis
restricting string content to the exactly-modelled characters.
-/

/-- A character whose `repr` rendering is modelled exactly. -/
def charOk (c : Char) : Bool :=
  (32 ≤ c.toNat && c.toNat ≤ 126) || c = '\n' || c = '\r' || c = '\t'

/-- All characters of a string are exactly modelled. -/
def strOkS (s : Str) : Bool := s.all charOk

mutual

/-- All strings inside the value are exactly modelled. -/
def StrOkV : PyVal → Bool
  | PyVal.str s => strOkS s
  | PyVal.dict es => StrOkE es
  | PyVal.list ls => StrOkL ls
  | _ => true

/-- All strings inside dict entries are exactly modelled. -/
def StrOkE : PyEntries → Bool
  | PyEntries.nil => true
  | PyEntries.cons k v rest => strOkS k && StrOkV v && StrOkE rest

/-- All strings inside list elements are exactly modelled. -/
def StrOkL : PyList → Bool
  | PyList.nil => true
  | PyList.cons v rest => StrOkV v && StrOkL rest

end

/-! ## Python `eval` on value literals

The reconciler recovers the workload's return value with
`eval(output_line)` (source line 225).  On the lines the ephemeral script can
print these are value literals, so `eval` is modelled as a recursive-descent
parser over the `repr` grammar above.  The parser is fuelled; `pyEval` supplies
ample fuel and requires the whole line to be consumed, as `eval` does.
-/

/-- Numeric value of a decimal digit character. -/
def digitVal (c : Char) : Nat := c.toNat - 48

/-- Value of a digit string, most significant digit first. -/
def digitsVal (ds : Str) : Nat := ds.foldl (fun a c => 10 * a + digitVal c) 0

/-- `true` iff the text does not begin with a decimal digit. -/
def noDigit : Str → Bool
  | [] => true
  | c :: _ => !c.isDigit

/-- Match an expected literal suffix, returning the remaining input. -/
def expectChars : Str → Str → Option Str
  | [], input => some input
  | _ :: _, [] => Option.none
  | e :: es, c :: cs => if c = e then expectChars es cs else Option.none

/-- Decode one escape character of a quoted string literal. -/
def unescape (e : Char) : Option Char :=
  if e = '\\' then some '\\'
  else if e = '\'' then some '\''
  else if e = '"' then some '"'
  else if e = 'n' then some '\n'
  else if e = 'r' then some '\r'
  else if e = 't' then some '\t'
  else Option.none

/-- Parse a quoted string body up to the closing quote `q`. -/
def parseStrLit (q : Char) : Str → Option (Str × Str)
  | [] => Option.none
  | c :: cs =>
    if c = q then some ([], cs)
    else if c = '\\' then
      match cs with
      | [] => Option.none
      | e :: cs2 =>
        match unescape e with
        | some d => (parseStrLit q cs2).map (fun p => (d :: p.1, p.2))
        | Option.none => Option.none
    else (parseStrLit q cs).map (fun p => (c :: p.1, p.2))

mutual

/-- Parse one value literal. -/
def parseVal : Nat → Str → Option (PyVal × Str)
  | 0, _ => Option.none
  | _ + 1, [] => Option.none
  | fuel + 1, c :: cs =>
    if c = 'N' then (expectChars (S "one") cs).map (fun r => (PyVal.none, r))
    else if c = 'T' then (expectChars (S "rue") cs).map (fun r => (PyVal.bool true, r))
    else if c = 'F' then (expectChars (S "alse") cs).map (fun r => (PyVal.bool false, r))
    else if c = '\'' ∨ c = '"' then
      (parseStrLit c cs).map (fun p => (PyVal.str p.1, p.2))
    else if c = '{' then (parseEntries fuel cs).map (fun p => (PyVal.dict p.1, p.2))
    else if c = '[' then (parseElems fuel cs).map (fun p => (PyVal.list p.1, p.2))
    else if c = '-' then
      match cs with
      | [] => Option.none
      | d :: _ =>
        if d.isDigit then
          some (PyVal.int (-(digitsVal (cs.takeWhile Char.isDigit) : Int)),
            cs.dropWhile Char.isDigit)
        else Option.none
    else if c.isDigit then
      some (PyVal.int (digitsVal ((c :: cs).takeWhile Char.isDigit) : Int),
        (c :: cs).dropWhile Char.isDigit)
    else Option.none

/-- Parse dict entries after the opening `{`, consuming the closing `}`. -/
def parseEntries : Nat → Str → Option (PyEntries × Str)
  | 0, _ => Option.none
  | _ + 1, [] => Option.none
  | fuel + 1, c :: cs =>
    if c = '}' then some (PyEntries.nil, cs)
    else if c = '\'' ∨ c = '"' then
      match parseStrLit c cs with
      | Option.none => Option.none
      | some (k, rest1) =>
        match rest1 with
        | ':' :: ' ' :: rest2 =>
          match parseVal fuel rest2 with
          | Option.none => Option.none
          | some (v, rest3) =>
            match rest3 with
            | ',' :: ' ' :: rest4 =>
              (parseEntries fuel rest4).map (fun p => (PyEntries.cons k v p.1, p.2))
            | '}' :: rest4 => some (PyEntries.cons k v PyEntries.nil, rest4)
            | _ => Option.none
        | _ => Option.none
    else Option.none

/-- Parse list elements after the opening `[`, consuming the closing `]`. -/
def parseElems : Nat → Str → Option (PyList × Str)
  | 0, _ => Option.none
  | _ + 1, [] => Option.none
  | fuel + 1, c :: cs =>
    if c = ']' then some (PyList.nil, cs)
    else
      match parseVal fuel (c :: cs) with
      | Option.none => Option.none
      | some (v, rest1) =>
        match rest1 with
        | ',' :: ' ' :: rest2 =>
          (parseElems fuel rest2).map (fun p => (PyList.cons v p.1, p.2))
        | ']' :: rest2 => some (PyList.cons v PyList.nil, rest2)
        | _ => Option.none

end

/-- Model of `eval(output_line)` on a value literal: the whole line must be
one literal, otherwise the evaluation fails (raises, in the source). -/
def pyEval (line : Str) : Option PyVal :=
  match parseVal (line.length + 1) line with
  | some (v, []) => some v
  | _ => Option.none

/-! ## Small Python string utilities used by the reconciler -/

/-- The characters Python `str.strip()` removes. -/
def isPySpace (c : Char) : Bool :=
  c = ' ' || c = '\t' || c = '\n' || c = '\r' || c = '\x0b' || c = '\x0c'

/-- Python `str.strip()`. -/
def pyStrip (l : Str) : Str :=
  ((l.dropWhile isPySpace).reverse.dropWhile isPySpace).reverse

/-- Python `s.startswith(pre)`. -/
def startsWith : Str → Str → Bool
  | [], _ => true
  | _ :: _, [] => false
  | p :: ps, c :: cs => p == c && startsWith ps cs

/-- The text after the first occurrence of `sep`, modelling
`s.split(sep, 1)[1]`; the source only indexes `[1]` after checking
`s.startswith(sep)`, so an occurrence is guaranteed there. -/
def pySplitAfter (sep : Str) : Str → Str
  | [] => []
  | c :: rest =>
    if startsWith sep (c :: rest) then (c :: rest).drop sep.length
    else pySplitAfter sep rest

/-! ## The profiler's data model

Embedding of `true_runtime_profiler.py`.  Pure data and control flow is
translated directly; the external effects (the strace subprocess, the
dynamically loaded handler, signal delivery, timeouts) are supplied as
explicit environment values enumerating the behaviours the source reacts to.
-/

/-- A discovered workload (`_discover_functions` record, lines 49-54). -/
structure FunctionInfo where
  name : Str
  category : Str
  function_path : Str
  input_path : Str

/-- Dict-literal helpers for the canned input table. -/
def pStr (s : String) : PyVal := PyVal.str (S s)

/-- An integer value literal. -/
def pInt (n : Int) : PyVal := PyVal.int n

/-- A one-entry dict literal. -/
def pd1 (k : String) (v : PyVal) : PyVal :=
  PyVal.dict (PyEntries.cons (S k) v PyEntries.nil)

/-- A two-entry dict literal. -/
def pd2 (k1 : String) (v1 : PyVal) (k2 : String) (v2 : PyVal) : PyVal :=
  PyVal.dict (PyEntries.cons (S k1) v1 (PyEntries.cons (S k2) v2 PyEntries.nil))

/-- The canned-input table `self.correct_inputs` (lines 20-37), in source
order; Python dict lookup is modelled by association-list lookup, faithful
because the keys are distinct. -/
def correct_inputs : List (Str × PyVal) :=
  [ (S "110.dynamic-html", pd2 "username" (pStr "testuser") "random_len" (pInt 10)),
    (S "130.crud-api", pd2 "action" (pStr "get") "id" (pStr "1")),
    (S "210.thumbnailer", pd2 "image" (pStr "test.jpg") "size" (pInt 100)),
    (S "220.video-processing", pd1 "video" (pStr "test.mp4")),
    (S "311.compression", pd1 "text" (pStr "Hello World")),
    (S "411.image-recognition", pd1 "image" (pStr "test.jpg")),
    (S "503.graph-bfs", pd1 "size" (pInt 10)),
    (S "501.graph-pagerank", pd1 "size" (pInt 10)),
    (S "504.dna-visualisation", pd1 "sequence" (pStr "ATCGATCG")),
    (S "502.graph-mst", pd1 "size" (pInt 10)),
    (S "020.network-benchmark", pd1 "port" (pInt 8080)),
    (S "030.clock-synchronization", pd1 "time" (pStr "12:00:00")),
    (S "040.server-reply", pd1 "message" (pStr "hello")),
    (S "010.sleep", pd1 "sleep_time" (pInt 1)),
    (S "120.uploader", pd2 "file" (pStr "test.txt") "content" (pStr "hello world")) ]

/-- `_get_input_for_function` (lines 58-60):
`self.correct_inputs.get(function_name, {'data': 'test'})`. -/
def _get_input_for_function (function_name : Str) : PyVal :=
  (correct_inputs.lookup function_name).getD (pd1 "data" (pStr "test"))

/-- A result dict returned by either profiling mode.  Option fields model
keys that are absent from some of the source's result dicts; `function_result`
uses `PyVal.none` for both Python `None` and an absent key (the source never
distinguishes them).  `timed_out` is a model flag that is `true` exactly on
the `subprocess.TimeoutExpired` path of `profile_full_python`, which the
source encodes as the fixed error string. -/
structure ProfileResult where
  function_name : Str
  profiling_mode : Str
  success : Bool
  function_result : PyVal
  error : Option Str
  input_data : PyVal
  strace_file : Option Str
  strace_summary_file : Option Str
  strace_full_file : Option Str
  stdout : Option Str
  stderr : Option Str
  timed_out : Bool

/-- What loading and invoking the workload handler did (lines 100-110):
either it returned a value or it raised with message `str(e)`. -/
inductive HandlerOutcome where
  | ret : PyVal → HandlerOutcome
  | raised : Str → HandlerOutcome

/-- Behaviour of the collector at the stop protocol (lines 115-117): it
either exits within the bounded `wait(timeout=10)`, or that wait raises
`subprocess.TimeoutExpired` with the given message. -/
inductive StopBehavior where
  | exits : StopBehavior
  | timesOut : Str → StopBehavior

/-- Environment of one attach-mode session: either `subprocess.Popen`
raises (collector unavailable), or the session runs the workload and then
the stop protocol behaves as given. -/
inductive AttachEnv where
  | popenFails : Str → AttachEnv
  | runs : HandlerOutcome → StopBehavior → AttachEnv

/-- Observable process-control actions of one attach-mode session, in
order: starting the collector, the settle sleep, `send_signal(SIGINT)`,
`wait(timeout=10)`, and the `terminate()` escalation in the cleanup block. -/
inductive AttachAction where
  | startCollector : AttachAction
  | sleepSettle : AttachAction
  | sendInterrupt : AttachAction
  | waitCollector : AttachAction
  | forceTerminate : AttachAction
deriving DecidableEq

/-- `profile_function_in_runtime` (lines 62-146).  Returns the result dict
together with the ordered process-control actions the session performed. -/
def profile_function_in_runtime (function_info : FunctionInfo) (summary : Bool)
    (env : AttachEnv) : ProfileResult × List AttachAction :=
  let function_name := function_info.name
  let input_data := _get_input_for_function function_name
  let mode_str := if summary then S "summary" else S "full"
  let strace_file :=
    (if summary then S "runtime_summary_" else S "runtime_full_") ++
      function_name ++ S ".txt"
  match env with
  | AttachEnv.popenFails msg =>
    -- `Popen` raised: caught by the outer handler (lines 131-138); the
    -- cleanup block finds no collector process.
    ({ function_name := function_name, profiling_mode := S "runtime_" ++ mode_str,
       success := false, function_result := PyVal.none, error := some msg,
       input_data := input_data, strace_file := Option.none,
       strace_summary_file := Option.none, strace_full_file := Option.none,
       stdout := Option.none, stderr := Option.none, timed_out := false }, [])
  | AttachEnv.runs h stop =>
    let pair : PyVal × Option Str :=
      match h with
      | HandlerOutcome.ret v => (v, Option.none)
      | HandlerOutcome.raised m => (PyVal.none, some m)
    match stop with
    | StopBehavior.exits =>
      ({ function_name := function_name, profiling_mode := S "runtime_" ++ mode_str,
         success := true, function_result := pair.1, error := pair.2,
         input_data := input_data, strace_file := some strace_file,
         strace_summary_file := Option.none, strace_full_file := Option.none,
         stdout := Option.none, stderr := Option.none, timed_out := false },
       [AttachAction.startCollector, AttachAction.sleepSettle,
        AttachAction.sendInterrupt, AttachAction.waitCollector])
    | StopBehavior.timesOut m =>
      -- `wait(timeout=10)` raised `TimeoutExpired`: caught by the outer
      -- handler (success False); the cleanup block then terminates the
      -- still-running collector (lines 139-146).
      ({ function_name := function_name, profiling_mode := S "runtime_" ++ mode_str,
         success := false, function_result := PyVal.none, error := some m,
         input_data := input_data, strace_file := Option.none,
         strace_summary_file := Option.none, strace_full_file := Option.none,
         stdout := Option.none, stderr := Option.none, timed_out := false },
       [AttachAction.startCollector, AttachAction.sleepSettle,
        AttachAction.sendInterrupt, AttachAction.waitCollector,
        AttachAction.forceTerminate])

/-- One completed `subprocess.run` of the collector (spawn mode). -/
structure RunResult where
  returncode : Int
  stdout : Str
  stderr : Str

/-- Environment of one spawn-mode session: the first run times out, the
second run times out (after the first returned `r1`), some other internal
fault raises with message, or both runs complete. -/
inductive SpawnEnv where
  | timeout1 : SpawnEnv
  | timeout2 : RunResult → SpawnEnv
  | raises : Str → SpawnEnv
  | completes : RunResult → RunResult → SpawnEnv

/-- Result of a spawn-mode session plus whether the transient script file
still exists when the call returns; the `finally` block (lines 269-274)
removes it on every path. -/
structure SpawnOutput where
  result : ProfileResult
  script_exists_after : Bool

/-- Behaviour of the ephemeral script (`script_content`, lines 166-191) as a
process: on a successful handler it prints `repr(result)` and exits 0; on a
fault it prints `ERROR: {e}` and exits 1 (`print` appends a newline). -/
def script_run : HandlerOutcome → RunResult
  | HandlerOutcome.ret v => ⟨0, encVal v ++ S "\n", []⟩
  | HandlerOutcome.raised m => ⟨1, S "ERROR: " ++ m ++ S "\n", []⟩

/-- `profile_full_python` (lines 148-274). -/
def profile_full_python (function_info : FunctionInfo) (env : SpawnEnv) :
    SpawnOutput :=
  let function_name := function_info.name
  let input_data := _get_input_for_function function_name
  let strace_summary_file := S "fullpython_summary_" ++ function_name ++ S ".txt"
  let strace_full_file := S "fullpython_full_" ++ function_name ++ S ".txt"
  match env with
  | SpawnEnv.timeout1 =>
    { result :=
        { function_name := function_name, profiling_mode := S "full_python",
          success := false, function_result := PyVal.none,
          error := some (S "Full Python execution timed out"),
          input_data := input_data, strace_file := Option.none,
          strace_summary_file := Option.none, strace_full_file := Option.none,
          stdout := Option.none, stderr := Option.none, timed_out := true },
      script_exists_after := false }
  | SpawnEnv.timeout2 _ =>
    { result :=
        { function_name := function_name, profiling_mode := S "full_python",
          success := false, function_result := PyVal.none,
          error := some (S "Full Python execution timed out"),
          input_data := input_data, strace_file := Option.none,
          strace_summary_file := Option.none, strace_full_file := Option.none,
          stdout := Option.none, stderr := Option.none, timed_out := true },
      script_exists_after := false }
  | SpawnEnv.raises msg =>
    { result :=
        { function_name := function_name, profiling_mode := S "full_python",
          success := false, function_result := PyVal.none, error := some msg,
          input_data := input_data, strace_file := Option.none,
          strace_summary_file := Option.none, strace_full_file := Option.none,
          stdout := Option.none, stderr := Option.none, timed_out := false },
      script_exists_after := false }
  | SpawnEnv.completes result_summary _result_full =>
    -- Outcome extraction (lines 216-234) reads only the summary run.
    let output_line := pyStrip result_summary.stdout
    let function_result : PyVal :=
      if result_summary.returncode = 0 then
        if !output_line.isEmpty && !startsWith (S "ERROR:") output_line then
          (pyEval output_line).getD PyVal.none
        else PyVal.none
      else PyVal.none
    let error_msg : Option Str :=
      if result_summary.returncode = 0 then Option.none
      else if !result_summary.stdout.isEmpty &&
          startsWith (S "ERROR:") result_summary.stdout then
        some (pyStrip (pySplitAfter (S "ERROR:") result_summary.stdout))
      else
        some (S "Process failed with exit code " ++ intEnc result_summary.returncode ++
          (if result_summary.stderr.isEmpty then [] else S ": " ++ result_summary.stderr))
    { result :=
        { function_name := function_name, profiling_mode := S "full_python",
          success := true, function_result := function_result, error := error_msg,
          input_data := input_data, strace_file := Option.none,
          strace_summary_file := some strace_summary_file,
          strace_full_file := some strace_full_file,
          stdout := some result_summary.stdout, stderr := some result_summary.stderr,
          timed_out := false },
      script_exists_after := false }

/-- `true` on the spawn environments whose run raises `TimeoutExpired`. -/
def isTimeoutEnv : SpawnEnv → Bool
  | SpawnEnv.timeout1 => true
  | SpawnEnv.timeout2 _ => true
  | _ => false

/-! ## Terminal reporting (`main`, lines 314-345) -/

/-- Python truthiness of an optional string (`if result['error']:`). -/
def truthyStr (o : Option Str) : Bool := !(o.getD []).isEmpty

/-- The lines one per-mode detail block prints (lines 325-331 / 333-339). -/
def detail_block (header : Str) (r : ProfileResult) : List Str :=
  [header,
   S "  Function executed: " ++ (if isNoneV r.function_result then S "✗" else S "✓")]
  ++ (if isNoneV r.function_result then [] else
      [S "  Function result: " ++ pyStrOf r.function_result])
  ++ (if truthyStr r.error then [S "  Function error: " ++ r.error.getD []] else [])

/-- The final-results section printed when a workload was resolved
(lines 315-339).  The attach-summary block (lines 317-323) is commented out
in the source, so `runtime_summary_result` is never consulted. -/
def main_report (_runtime_summary_result runtime_full_result fullpython_result :
    ProfileResult) : List Str :=
  [S "\n=== Final Results ==="]
  ++ (if runtime_full_result.success then
        detail_block (S "\nRuntime-only profiling (full):") runtime_full_result
      else [])
  ++ (if fullpython_result.success then
        detail_block (S "\nFull Python profiling:") fullpython_result
      else [])

/-- What `main` prints when no workload was resolved (lines 341-345). -/
def report_no_target (functions : List FunctionInfo) : List Str :=
  [S "No suitable test function found", S "Available functions:"]
  ++ (functions.take 5).map
      (fun f => S "  - " ++ f.name ++ S " (" ++ f.category ++ S ")")

/-! ## Outcome exclusivity (spec's ExecutionOutcome invariant) -/

/-- At most one of returned value / fault message / timed-out is set: a
non-null error forces a `None` result, a timed-out result carries only the
timeout indication, and a non-`None` result excludes fault and timeout. -/
def mutual_excl (r : ProfileResult) : Bool :=
  (r.error.isNone || isNoneV r.function_result)
  && (!r.timed_out ||
      (isNoneV r.function_result &&
        r.error == some (S "Full Python execution timed out")))
  && (isNoneV r.function_result || (r.error.isNone && !r.timed_out))

/-! ## Decimal printing and re-parsing -/

/-- Every character `digitChar10` produces is a decimal digit. -/
theorem digitChar10_isDigit (n : Nat) : (digitChar10 n).isDigit = true := by
  unfold digitChar10
  split <;> decide

/-- Reading back the digit character for `n < 10` recovers `n`. -/
theorem digitVal_digitChar10 {n : Nat} (h : n < 10) :
    digitVal (digitChar10 n) = n := by
  interval_cases n <;> decide

/-- `natEnc` never produces the empty string. -/
theorem natEnc_ne_nil (n : Nat) : natEnc n ≠ [] := by
  rw [natEnc]
  split
  · simp
  · simp

/-- Every character of `natEnc n` is a decimal digit. -/
theorem natEnc_digits (n : Nat) : ∀ c ∈ natEnc n, c.isDigit = true := by
  induction n using Nat.strongRecOn with
  | _ n ih =>
    rw [natEnc]
    split
    · intro c hc
      simp only [List.mem_singleton] at hc
      subst hc
      exact digitChar10_isDigit n
    · intro c hc
      rcases List.mem_append.mp hc with h | h
      · exact ih (n / 10) (Nat.div_lt_self (by omega) (by omega)) c h
      · simp only [List.mem_singleton] at h
        subst h
        exact digitChar10_isDigit (n % 10)

/-- A decimal digit is not a space character. -/
theorem digit_not_space {c : Char} (h : c.isDigit = true) : isPySpace c = false := by
  by_contra hc
  simp only [Bool.not_eq_false, isPySpace, Bool.or_eq_true, decide_eq_true_eq] at hc
  rcases hc with ((((h1 | h1) | h1) | h1) | h1) | h1 <;> subst h1 <;> simp at h

/-- A decimal digit is none of the dispatch characters of `parseVal`. -/
theorem digit_ne {c : Char} (h : c.isDigit = true) :
    c ≠ 'N' ∧ c ≠ 'T' ∧ c ≠ 'F' ∧ c ≠ '\'' ∧ c ≠ '"' ∧ c ≠ '{' ∧ c ≠ '[' ∧
      c ≠ '-' ∧ c ≠ 'E' ∧ c ≠ ']' ∧ c ≠ '}' ∧ c ≠ ',' := by
  refine ⟨?_, ?_, ?_, ?_, ?_, ?_, ?_, ?_, ?_, ?_, ?_, ?_⟩ <;>
    (intro he; subst he; simp at h)

/-- `takeWhile` over a block of matching characters followed by a
non-matching boundary splits exactly at the boundary. -/
theorem takeWhile_block (p : Char → Bool) :
    ∀ (a b : List Char), (∀ c ∈ a, p c = true) →
      (∀ c, b.head? = some c → p c = false) →
      (a ++ b).takeWhile p = a ∧ (a ++ b).dropWhile p = b := by
  intro a
  induction a with
  | nil =>
    intro b _ hb
    cases b with
    | nil => simp
    | cons c cs =>
      have := hb c rfl
      simp [List.takeWhile, List.dropWhile, this]
  | cons x xs ih =>
    intro b ha hb
    have hx : p x = true := ha x (by simp)
    have := ih b (fun c hc => ha c (by simp [hc])) hb
    simp [List.takeWhile, List.dropWhile, hx, this.1, this.2]

/-- Reading back the decimal representation of `n` recovers `n`. -/
theorem digitsVal_natEnc (n : Nat) : digitsVal (natEnc n) = n := by
  induction n using Nat.strongRecOn with
  | _ n ih =>
    rw [natEnc]
    split
    · next h =>
      simp [digitsVal, digitVal_digitChar10 h]
    · next h =>
      have hdiv := ih (n / 10) (Nat.div_lt_self (by omega) (by omega))
      simp only [digitsVal, List.foldl_append, List.foldl]
      rw [digitsVal] at hdiv
      rw [hdiv, digitVal_digitChar10 (Nat.mod_lt n (by omega))]
      omega

/-! ## String-literal round trip -/

/-- The quote `repr` picks is always one of the two quote characters. -/
theorem quoteFor_cases (s : Str) : quoteFor s = '\'' ∨ quoteFor s = '"' := by
  unfold quoteFor
  split
  · right; rfl
  · left; rfl

/-- Parsing the escaped body of a string plus the closing quote recovers the
string and leaves the rest of the input untouched. -/
theorem parseStrLit_escList (q : Char) (hq : q = '\'' ∨ q = '"') :
    ∀ (s rest : Str), parseStrLit q (escList q s ++ q :: rest) = some (s, rest) := by
  have hbq : ¬(('\\' : Char) = q) := by rcases hq with h | h <;> subst h <;> decide
  have hqb : ¬(q = '\\') := fun h => hbq h.symm
  have hu : unescape q = some q := by rcases hq with h | h <;> subst h <;> decide
  have hnq : ¬(('\n' : Char) = q) := by rcases hq with h | h <;> subst h <;> decide
  have hrq : ¬(('\r' : Char) = q) := by rcases hq with h | h <;> subst h <;> decide
  have htq : ¬(('\t' : Char) = q) := by rcases hq with h | h <;> subst h <;> decide
  intro s
  induction s with
  | nil =>
    intro rest
    rw [escList, List.nil_append, parseStrLit.eq_def]
    simp
  | cons c cs ih =>
    intro rest
    by_cases h1 : c = '\\'
    · subst h1
      rw [escList, escChar]
      simp only [if_pos rfl, List.cons_append, List.append_assoc]
      rw [parseStrLit.eq_def]
      simp [hbq, unescape, ih]
    · by_cases h2 : c = q
      · rw [escList, escChar, if_neg (by rw [h2]; exact hqb), if_pos h2]
        simp only [List.cons_append, List.append_assoc]
        rw [parseStrLit.eq_def]
        simp [hbq, hu, ih, h2]
      · by_cases h3 : c = '\n'
        · subst h3
          rw [escList, escChar, if_neg (by decide), if_neg h2]
          simp only [if_pos rfl, List.cons_append, List.append_assoc]
          rw [parseStrLit.eq_def]
          simp [hbq, unescape, ih]
        · by_cases h4 : c = '\r'
          · subst h4
            rw [escList, escChar, if_neg (by decide), if_neg h2, if_neg (by decide)]
            simp only [if_pos rfl, List.cons_append, List.append_assoc]
            rw [parseStrLit.eq_def]
            simp [hbq, unescape, ih]
          · by_cases h5 : c = '\t'
            · subst h5
              rw [escList, escChar, if_neg (by decide), if_neg h2, if_neg (by decide),
                if_neg (by decide)]
              simp only [if_pos rfl, List.cons_append, List.append_assoc]
              rw [parseStrLit.eq_def]
              simp [hbq, unescape, ih]
            · rw [escList, escChar, if_neg h1, if_neg h2, if_neg h3, if_neg h4, if_neg h5]
              simp only [List.singleton_append, List.cons_append]
              rw [parseStrLit.eq_def]
              simp [h1, h2, ih]

/-! ## Shape of encoded values -/

/-- The decimal representation starts with a digit. -/
theorem natEnc_head (n : Nat) :
    ∃ d t, natEnc n = d :: t ∧ d.isDigit = true := by
  cases h : natEnc n with
  | nil => exact absurd h (natEnc_ne_nil n)
  | cons d t =>
    exact ⟨d, t, rfl, natEnc_digits n d (by rw [h]; simp)⟩

/-- The decimal representation ends with a digit. -/
theorem natEnc_last (n : Nat) :
    ∃ d t, (natEnc n).reverse = d :: t ∧ d.isDigit = true := by
  cases h : (natEnc n).reverse with
  | nil =>
    have := natEnc_ne_nil n
    simp only [List.reverse_eq_nil_iff] at h
    exact absurd h this
  | cons d t =>
    refine ⟨d, t, rfl, natEnc_digits n d ?_⟩
    have : d ∈ (natEnc n).reverse := by rw [h]; simp
    simpa using this

/-- Every encoded value starts with one of the literal dispatch characters
or a digit. -/
theorem encVal_head (v : PyVal) :
    ∃ c t, encVal v = c :: t ∧
      (c = 'N' ∨ c = 'T' ∨ c = 'F' ∨ c = '\'' ∨ c = '"' ∨ c = '{' ∨ c = '[' ∨
        c = '-' ∨ c.isDigit = true) := by
  cases v with
  | none => exact ⟨'N', _, rfl, by tauto⟩
  | bool b => cases b with
    | true => exact ⟨'T', _, rfl, by tauto⟩
    | false => exact ⟨'F', _, rfl, by tauto⟩
  | int n =>
    show ∃ c t, intEnc n = c :: t ∧ _
    rw [intEnc]
    split
    · exact ⟨'-', _, rfl, by tauto⟩
    · obtain ⟨d, t, hd, hdig⟩ := natEnc_head n.toNat
      exact ⟨d, t, hd, by tauto⟩
  | str s =>
    refine ⟨quoteFor s, _, rfl, ?_⟩
    rcases quoteFor_cases s with h | h <;> rw [h] <;> tauto
  | dict es => exact ⟨'{', _, rfl, by tauto⟩
  | list ls => exact ⟨'[', _, rfl, by tauto⟩

/-- Facts about any character that can start an encoded value: it is not a
space, not the `E` of `ERROR:`, and not a closing bracket. -/
theorem head_facts {c : Char}
    (h : c = 'N' ∨ c = 'T' ∨ c = 'F' ∨ c = '\'' ∨ c = '"' ∨ c = '{' ∨ c = '[' ∨
      c = '-' ∨ c.isDigit = true) :
    isPySpace c = false ∧ c ≠ 'E' ∧ c ≠ ']' := by
  rcases h with h | h | h | h | h | h | h | h | h
  · subst h; exact ⟨by decide, by decide, by decide⟩
  · subst h; exact ⟨by decide, by decide, by decide⟩
  · subst h; exact ⟨by decide, by decide, by decide⟩
  · subst h; exact ⟨by decide, by decide, by decide⟩
  · subst h; exact ⟨by decide, by decide, by decide⟩
  · subst h; exact ⟨by decide, by decide, by decide⟩
  · subst h; exact ⟨by decide, by decide, by decide⟩
  · subst h; exact ⟨by decide, by decide, by decide⟩
  · exact ⟨digit_not_space h, (digit_ne h).2.2.2.2.2.2.2.2.1,
      (digit_ne h).2.2.2.2.2.2.2.2.2.1⟩

/-- An encoded value is never the empty string. -/
theorem encVal_ne_nil (v : PyVal) : encVal v ≠ [] := by
  obtain ⟨c, t, h, _⟩ := encVal_head v
  rw [h]
  simp

/-- Unfolding equation of `encE` at `nil`. -/
theorem encE_nil : encE PyEntries.nil = ['}'] := by
  rw [encE.eq_def]

/-- Unfolding equation of `encE` at a final entry. -/
theorem encE_cons_nil (k : Str) (v : PyVal) :
    encE (PyEntries.cons k v PyEntries.nil) =
      encStr k ++ ':' :: ' ' :: (encVal v ++ ['}']) := by
  rw [encE.eq_def]
  simp

/-- Unfolding equation of `encE` at a non-final entry. -/
theorem encE_cons_cons (k : Str) (v : PyVal) (k2 : Str) (v2 : PyVal) (r2 : PyEntries) :
    encE (PyEntries.cons k v (PyEntries.cons k2 v2 r2)) =
      encStr k ++ ':' :: ' ' ::
        (encVal v ++ ',' :: ' ' :: encE (PyEntries.cons k2 v2 r2)) := by
  rw [encE.eq_def]
  simp

/-- Unfolding equation of `encL` at `nil`. -/
theorem encL_nil : encL PyList.nil = [']'] := by
  rw [encL.eq_def]

/-- Unfolding equation of `encL` at a final element. -/
theorem encL_cons_nil (v : PyVal) :
    encL (PyList.cons v PyList.nil) = encVal v ++ [']'] := by
  rw [encL.eq_def]

/-- Unfolding equation of `encL` at a non-final element. -/
theorem encL_cons_cons (v v2 : PyVal) (r2 : PyList) :
    encL (PyList.cons v (PyList.cons v2 r2)) =
      encVal v ++ ',' :: ' ' :: encL (PyList.cons v2 r2) := by
  rw [encL.eq_def]

/-- Dict entries always end with the closing brace. -/
theorem encE_last : (es : PyEntries) → ∃ t, (encE es).reverse = '}' :: t
  | PyEntries.nil => ⟨[], by rw [encE_nil]; rfl⟩
  | PyEntries.cons k v PyEntries.nil => by
    refine ⟨(encStr k ++ ':' :: ' ' :: encVal v).reverse, ?_⟩
    rw [encE_cons_nil,
      show encStr k ++ ':' :: ' ' :: (encVal v ++ ['}']) =
        (encStr k ++ ':' :: ' ' :: encVal v) ++ ['}'] by simp]
    simp
  | PyEntries.cons k v (PyEntries.cons k2 v2 r2) => by
    obtain ⟨t, ht⟩ := encE_last (PyEntries.cons k2 v2 r2)
    refine ⟨t ++ (' ' :: ',' :: (encStr k ++ ':' :: ' ' :: encVal v).reverse), ?_⟩
    rw [encE_cons_cons,
      show encStr k ++ ':' :: ' ' ::
          (encVal v ++ ',' :: ' ' :: encE (PyEntries.cons k2 v2 r2)) =
        (encStr k ++ ':' :: ' ' :: encVal v ++ [',', ' ']) ++
          encE (PyEntries.cons k2 v2 r2) by simp]
    rw [List.reverse_append, ht]
    simp

/-- List elements always end with the closing bracket. -/
theorem encL_last : (ls : PyList) → ∃ t, (encL ls).reverse = ']' :: t
  | PyList.nil => ⟨[], by rw [encL_nil]; rfl⟩
  | PyList.cons v PyList.nil => by
    refine ⟨(encVal v).reverse, ?_⟩
    rw [encL_cons_nil]
    simp
  | PyList.cons v (PyList.cons v2 r2) => by
    obtain ⟨t, ht⟩ := encL_last (PyList.cons v2 r2)
    refine ⟨t ++ (' ' :: ',' :: (encVal v).reverse), ?_⟩
    rw [encL_cons_cons,
      show encVal v ++ ',' :: ' ' :: encL (PyList.cons v2 r2) =
        (encVal v ++ [',', ' ']) ++ encL (PyList.cons v2 r2) by simp]
    rw [List.reverse_append, ht]
    simp

/-- The last character of an encoded value is a letter `e`, a quote, a digit
or a closing bracket; in particular it is not whitespace. -/
theorem encVal_last (v : PyVal) :
    ∃ c t, (encVal v).reverse = c :: t ∧ isPySpace c = false := by
  cases v with
  | none => exact ⟨'e', _, by rw [encVal]; rfl, by decide⟩
  | bool b => cases b with
    | true => exact ⟨'e', _, by rw [encVal]; rfl, by decide⟩
    | false => exact ⟨'e', _, by rw [encVal]; rfl, by decide⟩
  | int n =>
    rw [show encVal (PyVal.int n) = intEnc n from by rw [encVal]]
    rw [intEnc]
    split
    · obtain ⟨d, t, hd, hdig⟩ := natEnc_last (-n).toNat
      refine ⟨d, t ++ ['-'], ?_, digit_not_space hdig⟩
      rw [List.reverse_cons, hd]
      simp
    · obtain ⟨d, t, hd, hdig⟩ := natEnc_last n.toNat
      exact ⟨d, t, hd, digit_not_space hdig⟩
  | str s =>
    rw [show encVal (PyVal.str s) = encStr s from by rw [encVal]]
    rw [encStr]
    refine ⟨quoteFor s, (escList (quoteFor s) s).reverse ++ [quoteFor s], ?_, ?_⟩
    · rw [List.reverse_cons, List.reverse_append]
      simp
    · rcases quoteFor_cases s with h | h <;> rw [h] <;> decide
  | dict es =>
    obtain ⟨t, ht⟩ := encE_last es
    refine ⟨'}', t ++ ['{'], ?_, by decide⟩
    rw [show encVal (PyVal.dict es) = '{' :: encE es from by rw [encVal]]
    rw [List.reverse_cons, ht]
    simp
  | list ls =>
    obtain ⟨t, ht⟩ := encL_last ls
    refine ⟨']', t ++ ['['], ?_, by decide⟩
    rw [show encVal (PyVal.list ls) = '[' :: encL ls from by rw [encVal]]
    rw [List.reverse_cons, ht]
    simp

/-! ## Stripping the captured line -/

/-- `strip` of a clean text followed by the trailing newline of `print`
yields the text back. -/
theorem pyStrip_clean (l : Str)
    (hh : ∀ c, l.head? = some c → isPySpace c = false)
    (hl : ∀ c, l.reverse.head? = some c → isPySpace c = false) :
    pyStrip (l ++ S "\n") = l := by
  cases l with
  | nil => decide
  | cons a as =>
    have ha : isPySpace a = false := hh a rfl
    unfold pyStrip
    rw [List.cons_append, List.dropWhile_cons, ha]
    simp only [Bool.false_eq_true, if_false]
    rw [show (a :: (as ++ S "\n")) = ((a :: as) ++ ['\n']) from by simp [S]]
    rw [List.reverse_append]
    rw [show ['\n'].reverse = ['\n'] from rfl]
    rw [List.singleton_append, List.dropWhile_cons]
    rw [show isPySpace '\n' = true from rfl]
    simp only [if_true]
    cases hr : (a :: as).reverse with
    | nil => simp at hr
    | cons d t =>
      have hd : isPySpace d = false := hl d (by rw [hr]; rfl)
      rw [List.dropWhile_cons, hd]
      simp only [Bool.false_eq_true, if_false]
      rw [show (d :: t) = (a :: as).reverse from hr.symm]
      simp

/-- Stripping the script's successful output recovers the encoded value. -/
theorem pyStrip_encVal (v : PyVal) : pyStrip (encVal v ++ S "\n") = encVal v := by
  obtain ⟨c, t, hct, hdisj⟩ := encVal_head v
  obtain ⟨d, r, hdr, hd⟩ := encVal_last v
  refine pyStrip_clean _ (fun c2 h2 => ?_) (fun d2 h2 => ?_)
  · rw [hct] at h2
    simp only [List.head?] at h2
    cases h2
    exact (head_facts hdisj).1
  · rw [hdr] at h2
    simp only [List.head?] at h2
    cases h2
    exact hd

/-! ## Fuel measure for the literal parser -/

mutual

/-- Fuel needed by `parseVal` to parse an encoded value. -/
def msizeV : PyVal → Nat
  | PyVal.none => 1
  | PyVal.bool _ => 1
  | PyVal.int _ => 1
  | PyVal.str _ => 1
  | PyVal.dict es => msizeE es + 1
  | PyVal.list ls => msizeL ls + 1

/-- Fuel needed by `parseEntries` to parse encoded entries. -/
def msizeE : PyEntries → Nat
  | PyEntries.nil => 1
  | PyEntries.cons _ v rest => msizeV v + msizeE rest

/-- Fuel needed by `parseElems` to parse encoded elements. -/
def msizeL : PyList → Nat
  | PyList.nil => 1
  | PyList.cons v rest => msizeV v + msizeL rest

end

/-- Every fuel measure is positive. -/
theorem msizeV_pos (v : PyVal) : 1 ≤ msizeV v := by
  cases v <;> simp [msizeV]

/-- Entry fuel is positive. -/
theorem msizeE_pos (es : PyEntries) : 1 ≤ msizeE es := by
  cases es with
  | nil => simp [msizeE]
  | cons k v rest =>
    have := msizeV_pos v
    simp only [msizeE]
    omega

/-- Element fuel is positive. -/
theorem msizeL_pos (ls : PyList) : 1 ≤ msizeL ls := by
  cases ls with
  | nil => simp [msizeL]
  | cons v rest =>
    have := msizeV_pos v
    simp only [msizeL]
    omega

/-! ## Parser dispatch lemmas -/

/-- `noDigit` gives the boundary condition `takeWhile_block` needs. -/
theorem noDigit_head {rest : Str} (h : noDigit rest = true) :
    ∀ c, rest.head? = some c → c.isDigit = false := by
  intro c hc
  cases rest with
  | nil => simp at hc
  | cons d t =>
    simp only [List.head?] at hc
    cases hc
    simpa [noDigit] using h

/-- `parseVal` on a quote character parses a string literal. -/
theorem parseVal_quote (f : Nat) (q : Char) (cs : Str) (hq : q = '\'' ∨ q = '"') :
    parseVal (f + 1) (q :: cs) =
      (parseStrLit q cs).map (fun p => (PyVal.str p.1, p.2)) := by
  rcases hq with h | h <;> subst h <;> rfl

/-- `parseVal` on a digit parses a decimal integer greedily. -/
theorem parseVal_digit (f : Nat) (c : Char) (cs : Str) (h : c.isDigit = true) :
    parseVal (f + 1) (c :: cs) =
      some (PyVal.int (digitsVal ((c :: cs).takeWhile Char.isDigit) : Nat),
        (c :: cs).dropWhile Char.isDigit) := by
  obtain ⟨h1, h2, h3, h4, h5, h6, h7, h8, _, _, _, _⟩ := digit_ne h
  rw [parseVal.eq_def]
  simp [h1, h2, h3, h4, h5, h6, h7, h8, h]

/-- `parseVal` on a minus sign followed by a digit parses a negative
decimal integer greedily. -/
theorem parseVal_minus (f : Nat) (d : Char) (t : Str) (h : d.isDigit = true) :
    parseVal (f + 1) ('-' :: d :: t) =
      some (PyVal.int (-(digitsVal ((d :: t).takeWhile Char.isDigit) : Int)),
        (d :: t).dropWhile Char.isDigit) := by
  rw [parseVal.eq_def]
  simp [h]

/-- `parseEntries` on a parsed key followed by `: ` hands over to the value
parser and the separator dispatch. -/
theorem parseEntries_step (f : Nat) (q : Char) (hq : q = '\'' ∨ q = '"')
    (body k rest2 : Str)
    (hbody : parseStrLit q body = some (k, ':' :: ' ' :: rest2)) :
    parseEntries (f + 1) (q :: body) =
      match parseVal f rest2 with
      | Option.none => Option.none
      | some (v, rest3) =>
        match rest3 with
        | ',' :: ' ' :: rest4 =>
          (parseEntries f rest4).map (fun p => (PyEntries.cons k v p.1, p.2))
        | '}' :: rest4 => some (PyEntries.cons k v PyEntries.nil, rest4)
        | _ => Option.none := by
  rcases hq with h | h <;> subst h <;> rw [parseEntries.eq_def] <;> simp [hbody]

/-- `parseElems` on a non-`]` head hands over to the value parser and the
separator dispatch. -/
theorem parseElems_step (f : Nat) (c : Char) (cs : Str) (hne : ¬(c = ']')) :
    parseElems (f + 1) (c :: cs) =
      match parseVal f (c :: cs) with
      | Option.none => Option.none
      | some (v, rest1) =>
        match rest1 with
        | ',' :: ' ' :: rest2 =>
          (parseElems f rest2).map (fun p => (PyList.cons v p.1, p.2))
        | ']' :: rest2 => some (PyList.cons v PyList.nil, rest2)
        | _ => Option.none := by
  rw [parseElems.eq_def]
  simp [hne]

/-- Master round trip: with enough fuel, parsing an encoded value (entries,
elements) consumes exactly the encoding and returns the value. -/
theorem parse_enc (fuel : Nat) :
    (∀ v rest, msizeV v ≤ fuel → noDigit rest = true →
      parseVal fuel (encVal v ++ rest) = some (v, rest)) ∧
    (∀ es rest, msizeE es ≤ fuel →
      parseEntries fuel (encE es ++ rest) = some (es, rest)) ∧
    (∀ ls rest, msizeL ls ≤ fuel →
      parseElems fuel (encL ls ++ rest) = some (ls, rest)) := by
  induction fuel using Nat.strongRecOn with
  | _ fuel IH =>
    refine ⟨?_, ?_, ?_⟩
    · intro v rest hm hnd
      cases fuel with
      | zero => have := msizeV_pos v; omega
      | succ f =>
        cases v with
        | none =>
          rw [show encVal PyVal.none = S "None" from by rw [encVal]]
          rfl
        | bool b =>
          cases b with
          | true =>
            rw [show encVal (PyVal.bool true) = S "True" from by rw [encVal]]
            rfl
          | false =>
            rw [show encVal (PyVal.bool false) = S "False" from by rw [encVal]]
            rfl
        | int n =>
          rw [show encVal (PyVal.int n) = intEnc n from by rw [encVal]]
          rw [intEnc]
          split
          · next hneg =>
            obtain ⟨d, t, hd, hdig⟩ := natEnc_head (-n).toNat
            have hall : ∀ c ∈ d :: t, c.isDigit = true := by
              rw [← hd]; exact natEnc_digits (-n).toNat
            obtain ⟨htake, hdrop⟩ :=
              takeWhile_block Char.isDigit (d :: t) rest hall (noDigit_head hnd)
            rw [hd]
            simp only [List.cons_append]
            rw [parseVal_minus f d (t ++ rest) hdig]
            rw [show d :: (t ++ rest) = (d :: t) ++ rest from by simp]
            rw [htake, hdrop, ← hd, digitsVal_natEnc]
            have : ((((-n).toNat : Nat) : Int)) = -n := Int.toNat_of_nonneg (by omega)
            rw [this]
            simp
          · next hpos =>
            obtain ⟨d, t, hd, hdig⟩ := natEnc_head n.toNat
            have hall : ∀ c ∈ d :: t, c.isDigit = true := by
              rw [← hd]; exact natEnc_digits n.toNat
            obtain ⟨htake, hdrop⟩ :=
              takeWhile_block Char.isDigit (d :: t) rest hall (noDigit_head hnd)
            rw [hd]
            simp only [List.cons_append]
            rw [parseVal_digit f d (t ++ rest) hdig]
            rw [show d :: (t ++ rest) = (d :: t) ++ rest from by simp]
            rw [htake, hdrop, ← hd, digitsVal_natEnc]
            have : (((n.toNat : Nat)) : Int) = n := Int.toNat_of_nonneg (by omega)
            rw [this]
        | str s =>
          rw [show encVal (PyVal.str s) = encStr s from by rw [encVal]]
          rw [encStr]
          simp only [List.cons_append, List.append_assoc, List.singleton_append,
              List.nil_append]
          rw [parseVal_quote f (quoteFor s) _ (quoteFor_cases s)]
          rw [parseStrLit_escList (quoteFor s) (quoteFor_cases s)]
          rfl
        | dict es =>
          have hm2 : msizeE es ≤ f := by
            rw [show msizeV (PyVal.dict es) = msizeE es + 1 from by rw [msizeV]] at hm
            omega
          rw [show encVal (PyVal.dict es) = '{' :: encE es from by rw [encVal]]
          simp only [List.cons_append]
          rw [show parseVal (f + 1) ('{' :: (encE es ++ rest)) =
            (parseEntries f (encE es ++ rest)).map (fun p => (PyVal.dict p.1, p.2))
            from rfl]
          rw [(IH f (by omega)).2.1 es rest hm2]
          rfl
        | list ls =>
          have hm2 : msizeL ls ≤ f := by
            rw [show msizeV (PyVal.list ls) = msizeL ls + 1 from by rw [msizeV]] at hm
            omega
          rw [show encVal (PyVal.list ls) = '[' :: encL ls from by rw [encVal]]
          simp only [List.cons_append]
          rw [show parseVal (f + 1) ('[' :: (encL ls ++ rest)) =
            (parseElems f (encL ls ++ rest)).map (fun p => (PyVal.list p.1, p.2))
            from rfl]
          rw [(IH f (by omega)).2.2 ls rest hm2]
          rfl
    · intro es rest hm
      cases fuel with
      | zero => have := msizeE_pos es; omega
      | succ f =>
        cases es with
        | nil =>
          rw [encE_nil]
          rfl
        | cons k v r =>
          have hmv : msizeV v ≤ f := by
            rw [show msizeE (PyEntries.cons k v r) = msizeV v + msizeE r
              from by rw [msizeE]] at hm
            have := msizeE_pos r
            omega
          have hmr : msizeE r ≤ f := by
            rw [show msizeE (PyEntries.cons k v r) = msizeV v + msizeE r
              from by rw [msizeE]] at hm
            have := msizeV_pos v
            omega
          cases r with
          | nil =>
            rw [encE_cons_nil, encStr]
            simp only [List.cons_append, List.append_assoc, List.singleton_append,
              List.nil_append]
            have hbody := parseStrLit_escList (quoteFor k) (quoteFor_cases k) k
              (':' :: ' ' :: (encVal v ++ ('}' :: rest)))
            rw [parseEntries_step f (quoteFor k) (quoteFor_cases k) _ k _ hbody]
            rw [(IH f (by omega)).1 v ('}' :: rest) hmv (by rfl)]
            rfl
          | cons k2 v2 r2 =>
            rw [encE_cons_cons, encStr]
            simp only [List.cons_append, List.append_assoc, List.singleton_append,
              List.nil_append]
            have hbody := parseStrLit_escList (quoteFor k) (quoteFor_cases k) k
              (':' :: ' ' ::
                (encVal v ++ (',' :: ' ' :: (encE (PyEntries.cons k2 v2 r2) ++ rest))))
            rw [parseEntries_step f (quoteFor k) (quoteFor_cases k) _ k _ hbody]
            rw [(IH f (by omega)).1 v
              (',' :: ' ' :: (encE (PyEntries.cons k2 v2 r2) ++ rest)) hmv (by rfl)]
            show Option.map (fun p => (PyEntries.cons k v p.1, p.2))
              (parseEntries f (encE (PyEntries.cons k2 v2 r2) ++ rest)) =
              some (PyEntries.cons k v (PyEntries.cons k2 v2 r2), rest)
            rw [(IH f (by omega)).2.1 (PyEntries.cons k2 v2 r2) rest hmr]
            rfl
    · intro ls rest hm
      cases fuel with
      | zero => have := msizeL_pos ls; omega
      | succ f =>
        cases ls with
        | nil =>
          rw [encL_nil]
          rfl
        | cons v r =>
          have hmv : msizeV v ≤ f := by
            rw [show msizeL (PyList.cons v r) = msizeV v + msizeL r
              from by rw [msizeL]] at hm
            have := msizeL_pos r
            omega
          have hmr : msizeL r ≤ f := by
            rw [show msizeL (PyList.cons v r) = msizeV v + msizeL r
              from by rw [msizeL]] at hm
            have := msizeV_pos v
            omega
          obtain ⟨c, t, hct, hdisj⟩ := encVal_head v
          have hne : ¬(c = ']') := (head_facts hdisj).2.2
          cases r with
          | nil =>
            rw [encL_cons_nil]
            rw [hct]
            simp only [List.cons_append, List.append_assoc, List.singleton_append,
              List.nil_append]
            rw [parseElems_step f c (t ++ (']' :: rest)) hne]
            rw [show c :: (t ++ (']' :: rest)) = encVal v ++ (']' :: rest) from by
              rw [hct]; simp]
            rw [(IH f (by omega)).1 v (']' :: rest) hmv (by rfl)]
            rfl
          | cons v2 r2 =>
            rw [encL_cons_cons]
            rw [hct]
            simp only [List.cons_append, List.append_assoc, List.singleton_append,
              List.nil_append]
            rw [parseElems_step f c
              (t ++ (',' :: ' ' :: (encL (PyList.cons v2 r2) ++ rest))) hne]
            rw [show c :: (t ++ (',' :: ' ' :: (encL (PyList.cons v2 r2) ++ rest))) =
              encVal v ++ (',' :: ' ' :: (encL (PyList.cons v2 r2) ++ rest)) from by
              rw [hct]; simp]
            rw [(IH f (by omega)).1 v
              (',' :: ' ' :: (encL (PyList.cons v2 r2) ++ rest)) hmv (by rfl)]
            show Option.map (fun p => (PyList.cons v p.1, p.2))
              (parseElems f (encL (PyList.cons v2 r2) ++ rest)) =
              some (PyList.cons v (PyList.cons v2 r2), rest)
            rw [(IH f (by omega)).2.2 (PyList.cons v2 r2) rest hmr]
            rfl

/-- Every encoded value is nonempty (length form). -/
theorem one_le_length_encVal (v : PyVal) : 1 ≤ (encVal v).length := by
  obtain ⟨c, t, hct, _⟩ := encVal_head v
  rw [hct]
  simp

/-- The fuel measure is bounded by the length of the encoding, so the
length-based fuel of `pyEval` is always sufficient. -/
theorem msize_le_length (n : Nat) :
    (∀ v, msizeV v ≤ n → msizeV v ≤ (encVal v).length) ∧
    (∀ es, msizeE es ≤ n → msizeE es ≤ (encE es).length) ∧
    (∀ ls, msizeL ls ≤ n → msizeL ls ≤ (encL ls).length) := by
  induction n using Nat.strongRecOn with
  | _ n IH =>
    refine ⟨?_, ?_, ?_⟩
    · intro v hm
      cases n with
      | zero => have := msizeV_pos v; omega
      | succ f =>
        cases v with
        | none =>
          rw [show msizeV PyVal.none = 1 from by rw [msizeV]]
          exact one_le_length_encVal PyVal.none
        | bool b =>
          rw [show msizeV (PyVal.bool b) = 1 from by rw [msizeV]]
          exact one_le_length_encVal (PyVal.bool b)
        | int m =>
          rw [show msizeV (PyVal.int m) = 1 from by rw [msizeV]]
          exact one_le_length_encVal (PyVal.int m)
        | str s =>
          rw [show msizeV (PyVal.str s) = 1 from by rw [msizeV]]
          exact one_le_length_encVal (PyVal.str s)
        | dict es =>
          rw [show msizeV (PyVal.dict es) = msizeE es + 1 from by rw [msizeV]] at hm ⊢
          have h2 := (IH f (by omega)).2.1 es (by omega)
          rw [show encVal (PyVal.dict es) = '{' :: encE es from by rw [encVal]]
          simp only [List.length_cons]
          omega
        | list ls =>
          rw [show msizeV (PyVal.list ls) = msizeL ls + 1 from by rw [msizeV]] at hm ⊢
          have h2 := (IH f (by omega)).2.2 ls (by omega)
          rw [show encVal (PyVal.list ls) = '[' :: encL ls from by rw [encVal]]
          simp only [List.length_cons]
          omega
    · intro es hm
      cases n with
      | zero => have := msizeE_pos es; omega
      | succ f =>
        cases es with
        | nil =>
          rw [show msizeE PyEntries.nil = 1 from by rw [msizeE]]
          rw [encE_nil]
          simp
        | cons k v r =>
          rw [show msizeE (PyEntries.cons k v r) = msizeV v + msizeE r
            from by rw [msizeE]] at hm ⊢
          have hv := (IH f (by omega)).1 v (by have := msizeE_pos r; omega)
          cases r with
          | nil =>
            rw [encE_cons_nil]
            have hnil : msizeE PyEntries.nil = 1 := by rw [msizeE]
            simp only [List.length_append, List.length_cons, List.length_nil]
            omega
          | cons k2 v2 r2 =>
            have hr := (IH f (by omega)).2.1 (PyEntries.cons k2 v2 r2)
              (by have := msizeV_pos v; omega)
            rw [encE_cons_cons]
            simp only [List.length_append, List.length_cons]
            omega
    · intro ls hm
      cases n with
      | zero => have := msizeL_pos ls; omega
      | succ f =>
        cases ls with
        | nil =>
          rw [show msizeL PyList.nil = 1 from by rw [msizeL]]
          rw [encL_nil]
          simp
        | cons v r =>
          rw [show msizeL (PyList.cons v r) = msizeV v + msizeL r
            from by rw [msizeL]] at hm ⊢
          have hv := (IH f (by omega)).1 v (by have := msizeL_pos r; omega)
          cases r with
          | nil =>
            rw [encL_cons_nil]
            have hnil : msizeL PyList.nil = 1 := by rw [msizeL]
            simp only [List.length_append, List.length_cons, List.length_nil]
            omega
          | cons v2 r2 =>
            have hr := (IH f (by omega)).2.2 (PyList.cons v2 r2)
              (by have := msizeV_pos v; omega)
            rw [encL_cons_cons]
            simp only [List.length_append, List.length_cons]
            omega

/-- Evaluating the printed representation of a value recovers the value:
the `repr`/`eval` round trip of the spawn-mode protocol. -/
theorem pyEval_encVal (v : PyVal) : pyEval (encVal v) = some v := by
  have h1 : msizeV v ≤ (encVal v).length :=
    (msize_le_length (msizeV v)).1 v le_rfl
  have h2 := (parse_enc ((encVal v).length + 1)).1 v [] (by omega) (by rfl)
  rw [show encVal v ++ [] = encVal v from by simp] at h2
  unfold pyEval
  rw [h2]

/-! ## Reconciler-level helper lemmas -/

/-- An encoded value is nonempty in the `isEmpty` sense. -/
theorem encVal_isEmpty_false (v : PyVal) : (encVal v).isEmpty = false := by
  obtain ⟨c, t, hct, _⟩ := encVal_head v
  rw [hct]
  rfl

/-- An encoded value never carries the `ERROR:` prefix. -/
theorem startsWith_err_encVal (v : PyVal) :
    startsWith (S "ERROR:") (encVal v) = false := by
  obtain ⟨c, t, hct, hdisj⟩ := encVal_head v
  have hne : ('E' == c) = false := by
    have h2 : c ≠ 'E' := (head_facts hdisj).2.1
    exact beq_eq_false_iff_ne.mpr (Ne.symm h2)
  rw [hct]
  show ('E' == c && startsWith (S "RROR:") t) = false
  rw [hne]
  rfl

/-- A string with a nonempty prefix is itself nonempty. -/
theorem startsWith_ne_nil {sep s : Str} (hsep : sep ≠ [])
    (h : startsWith sep s = true) : s ≠ [] := by
  intro hs
  subst hs
  cases sep with
  | nil => exact hsep rfl
  | cons p ps => simp [startsWith] at h

/-- When the separator is a prefix, `split(sep, 1)[1]` is the text after
the prefix. -/
theorem pySplitAfter_of_startsWith (sep s : Str) (h : startsWith sep s = true) :
    pySplitAfter sep s = s.drop sep.length := by
  cases s with
  | nil => cases sep <;> rfl
  | cons c rest =>
    rw [pySplitAfter, if_pos h]

/-- Field-level content of a spawn-mode result whose summary run printed a
valid encoded value and exited 0: decoding recovers the value; no error. -/
theorem spawn_decode_ok (fi : FunctionInfo) (r1 r2 : RunResult) (v : PyVal)
    (h0 : r1.returncode = 0) (hs : r1.stdout = encVal v ++ S "\n") :
    (profile_full_python fi (SpawnEnv.completes r1 r2)).result.function_result = v ∧
    (profile_full_python fi (SpawnEnv.completes r1 r2)).result.error = Option.none := by
  have hline : pyStrip r1.stdout = encVal v := by rw [hs]; exact pyStrip_encVal v
  constructor
  · simp [profile_full_python, h0, hline, encVal_isEmpty_false,
      startsWith_err_encVal, pyEval_encVal]
  · simp [profile_full_python, h0]

/-! ## Concrete sample data for the witnesses -/

/-- The workload `main` resolves in the demo run. -/
def fi0 : FunctionInfo :=
  ⟨S "110.dynamic-html", S "100.webapps",
   S "benchmarks/100.webapps/110.dynamic-html/python/function.py",
   S "benchmarks/100.webapps/110.dynamic-html/python/input.py"⟩

/-- The sample return value of the spec (a mapping holding 42). -/
def v0 : PyVal := pd1 "result" (pInt 42)

/-- A second collector run whose content is irrelevant. -/
def rDummy : RunResult := ⟨0, [], []⟩

/-- A successful attach-summary result with a non-`None` value. -/
def rs1 : ProfileResult :=
  { function_name := S "110.dynamic-html", profiling_mode := S "runtime_summary",
    success := true, function_result := v0, error := Option.none,
    input_data := pd1 "data" (pStr "test"),
    strace_file := some (S "runtime_summary_110.dynamic-html.txt"),
    strace_summary_file := Option.none, strace_full_file := Option.none,
    stdout := Option.none, stderr := Option.none, timed_out := false }

/-- The same result marked unsuccessful. -/
def rf0 : ProfileResult := { rs1 with success := false }

/-! ## Claims -/

/-- C1 counterexample: the attach-summary artifact for `110.dynamic-html`
is `runtime_summary_110.dynamic-html.txt`, not the claimed
`attach_summary_110.dynamic-html.txt`. -/
theorem c1_counterexample :
    (profile_function_in_runtime fi0 true
        (AttachEnv.runs (HandlerOutcome.ret PyVal.none) StopBehavior.exits)).1.strace_file
      = some (S "runtime_summary_110.dynamic-html.txt") ∧
    (profile_function_in_runtime fi0 true
        (AttachEnv.runs (HandlerOutcome.ret PyVal.none) StopBehavior.exits)).1.strace_file
      ≠ some (S "attach_summary_110.dynamic-html.txt") := by
  exact ⟨rfl, by decide⟩

/-- C1 (amended): attach-mode sessions record artifact paths
`runtime_summary_N.txt` / `runtime_full_N.txt`, and spawn-mode sessions
record `fullpython_summary_N.txt` and `fullpython_full_N.txt`. -/
theorem c1_artifact_naming (fi : FunctionInfo) (h : HandlerOutcome)
    (r1 r2 : RunResult) :
    (profile_function_in_runtime fi true (AttachEnv.runs h StopBehavior.exits)).1.strace_file
      = some (S "runtime_summary_" ++ fi.name ++ S ".txt") ∧
    (profile_function_in_runtime fi false (AttachEnv.runs h StopBehavior.exits)).1.strace_file
      = some (S "runtime_full_" ++ fi.name ++ S ".txt") ∧
    (profile_full_python fi (SpawnEnv.completes r1 r2)).result.strace_summary_file
      = some (S "fullpython_summary_" ++ fi.name ++ S ".txt") ∧
    (profile_full_python fi (SpawnEnv.completes r1 r2)).result.strace_full_file
      = some (S "fullpython_full_" ++ fi.name ++ S ".txt") := by
  exact ⟨rfl, rfl, rfl, rfl⟩

/-- C2 counterexample: when the collector ignores the interrupt and the
bounded wait times out, the attach-mode call returns success `false`
(the claimed value is `true`), even though the forced termination did
happen. -/
theorem c2_counterexample :
    (profile_function_in_runtime fi0 true
        (AttachEnv.runs (HandlerOutcome.ret v0)
          (StopBehavior.timesOut (S "Command strace timed out after 10 seconds")))).1.success
      = false ∧
    AttachAction.forceTerminate ∈
      (profile_function_in_runtime fi0 true
        (AttachEnv.runs (HandlerOutcome.ret v0)
          (StopBehavior.timesOut (S "Command strace timed out after 10 seconds")))).2 := by
  exact ⟨rfl, by decide⟩

/-- C2 (amended): when the collector does not exit within the bounded wait
after the interrupt, the cleanup handler escalates to a forced termination,
but the call returns a result with success `false` carrying the timeout
fault's message. -/
theorem c2_stop_escalation (fi : FunctionInfo) (summary : Bool)
    (h : HandlerOutcome) (m : Str) :
    (profile_function_in_runtime fi summary
        (AttachEnv.runs h (StopBehavior.timesOut m))).1.success = false ∧
    (profile_function_in_runtime fi summary
        (AttachEnv.runs h (StopBehavior.timesOut m))).1.error = some m ∧
    AttachAction.forceTerminate ∈
      (profile_function_in_runtime fi summary
        (AttachEnv.runs h (StopBehavior.timesOut m))).2 := by
  refine ⟨rfl, rfl, ?_⟩
  show AttachAction.forceTerminate ∈
    [AttachAction.startCollector, AttachAction.sleepSettle,
     AttachAction.sendInterrupt, AttachAction.waitCollector,
     AttachAction.forceTerminate]
  decide

/-- C3: when loading or invoking the workload raises, the fault message is
captured in the result, the interrupt-and-wait stop protocol still runs,
and the session reports success `true` with a `None` function result. -/
theorem c3_workload_fault (fi : FunctionInfo) (summary : Bool) (m : Str) :
    (profile_function_in_runtime fi summary
        (AttachEnv.runs (HandlerOutcome.raised m) StopBehavior.exits)).1.success = true ∧
    (profile_function_in_runtime fi summary
        (AttachEnv.runs (HandlerOutcome.raised m) StopBehavior.exits)).1.error = some m ∧
    (profile_function_in_runtime fi summary
        (AttachEnv.runs (HandlerOutcome.raised m) StopBehavior.exits)).1.function_result
      = PyVal.none ∧
    AttachAction.sendInterrupt ∈
      (profile_function_in_runtime fi summary
        (AttachEnv.runs (HandlerOutcome.raised m) StopBehavior.exits)).2 ∧
    AttachAction.waitCollector ∈
      (profile_function_in_runtime fi summary
        (AttachEnv.runs (HandlerOutcome.raised m) StopBehavior.exits)).2 := by
  refine ⟨rfl, rfl, rfl, ?_, ?_⟩ <;>
    · show _ ∈ [AttachAction.startCollector, AttachAction.sleepSettle,
        AttachAction.sendInterrupt, AttachAction.waitCollector]
      decide

/-- C4: a spawn-mode run that exceeds the timeout bound yields success
`false` with the timed-out outcome, and the transient script file is gone
on every exit path (success, fault or timeout). -/
theorem c4_timeout_cleanup (fi : FunctionInfo) (env : SpawnEnv) :
    (profile_full_python fi env).script_exists_after = false ∧
    (isTimeoutEnv env = true →
      (profile_full_python fi env).result.success = false ∧
      (profile_full_python fi env).result.timed_out = true ∧
      (profile_full_python fi env).result.error
        = some (S "Full Python execution timed out")) := by
  cases env with
  | timeout1 => exact ⟨rfl, fun _ => ⟨rfl, rfl, rfl⟩⟩
  | timeout2 r => exact ⟨rfl, fun _ => ⟨rfl, rfl, rfl⟩⟩
  | raises m => exact ⟨rfl, fun h => by simp [isTimeoutEnv] at h⟩
  | completes r1 r2 => exact ⟨rfl, fun h => by simp [isTimeoutEnv] at h⟩

/-- C4 witness at the first-run-timeout environment. -/
theorem c4_timeout_cleanup_witness :
    (profile_full_python fi0 SpawnEnv.timeout1).script_exists_after = false ∧
    (profile_full_python fi0 SpawnEnv.timeout1).result.success = false ∧
    (profile_full_python fi0 SpawnEnv.timeout1).result.timed_out = true := by
  have h := c4_timeout_cleanup fi0 SpawnEnv.timeout1
  exact ⟨h.1, (h.2 rfl).1, (h.2 rfl).2.1⟩

/-- C6: an unmapped workload name resolves to the fallback input
`{data: test}`, a mapped name resolves to its table entry unchanged, and
every profiling mode records exactly that input in its result. -/
theorem c6_input_fallback (n : Str) :
    (correct_inputs.lookup n = Option.none →
      _get_input_for_function n = pd1 "data" (pStr "test")) ∧
    (∀ p, correct_inputs.lookup n = some p → _get_input_for_function n = p) ∧
    (∀ (fi : FunctionInfo) (summary : Bool) (aenv : AttachEnv) (senv : SpawnEnv),
      fi.name = n →
      (profile_function_in_runtime fi summary aenv).1.input_data
          = _get_input_for_function n ∧
      (profile_full_python fi senv).result.input_data
          = _get_input_for_function n) := by
  refine ⟨?_, ?_, ?_⟩
  · intro h
    unfold _get_input_for_function
    rw [h]
    rfl
  · intro p h
    unfold _get_input_for_function
    rw [h]
    rfl
  · intro fi summary aenv senv hname
    subst hname
    constructor
    · cases aenv with
      | popenFails m => rfl
      | runs h stop => cases stop <;> rfl
    · cases senv <;> rfl

/-- C6 witness: an unmapped name and a mapped name. -/
theorem c6_input_fallback_witness :
    _get_input_for_function (S "999.unmapped") = pd1 "data" (pStr "test") ∧
    _get_input_for_function (S "210.thumbnailer")
      = pd2 "image" (pStr "test.jpg") "size" (pInt 100) := by
  exact ⟨(c6_input_fallback (S "999.unmapped")).1 rfl,
    (c6_input_fallback (S "210.thumbnailer")).2.1
      (pd2 "image" (pStr "test.jpg") "size" (pInt 100)) rfl⟩

/-- C9: in both modes, at most one of returned value, fault message and
timed-out is set in the returned result. -/
theorem c9_outcome_exclusivity (fi : FunctionInfo) (summary : Bool)
    (aenv : AttachEnv) (senv : SpawnEnv) :
    mutual_excl (profile_function_in_runtime fi summary aenv).1 = true ∧
    mutual_excl (profile_full_python fi senv).result = true := by
  constructor
  · cases aenv with
    | popenFails m => rfl
    | runs h stop =>
      cases stop with
      | exits => cases h <;> simp [mutual_excl, profile_function_in_runtime, isNoneV]
      | timesOut m => cases h <;> rfl
  · cases senv with
    | timeout1 => rfl
    | timeout2 r => rfl
    | raises m => rfl
    | completes r1 r2 =>
      by_cases h0 : r1.returncode = 0 <;>
        simp [mutual_excl, profile_full_python, h0, isNoneV]

/-- C10: a spawn-mode session that completes both runs reports success
`true` even on a non-zero child exit, and when the child exited 0 with an
undecodable standard output, both the returned value and the error are
null. -/
theorem c10_spawn_success (fi : FunctionInfo) (r1 r2 : RunResult) :
    (profile_full_python fi (SpawnEnv.completes r1 r2)).result.success = true ∧
    (r1.returncode = 0 → pyEval (pyStrip r1.stdout) = Option.none →
      (profile_full_python fi (SpawnEnv.completes r1 r2)).result.function_result
          = PyVal.none ∧
      (profile_full_python fi (SpawnEnv.completes r1 r2)).result.error
          = Option.none) := by
  refine ⟨rfl, ?_⟩
  intro h0 hev
  constructor
  · simp [profile_full_python, h0, hev]
  · simp [profile_full_python, h0]

/-- C10 witness: exit code 0 with undecodable output. -/
theorem c10_spawn_success_witness :
    (profile_full_python fi0
        (SpawnEnv.completes ⟨0, S "garbage(", []⟩ rDummy)).result.success = true ∧
    (profile_full_python fi0
        (SpawnEnv.completes ⟨0, S "garbage(", []⟩ rDummy)).result.function_result
      = PyVal.none ∧
    (profile_full_python fi0
        (SpawnEnv.completes ⟨0, S "garbage(", []⟩ rDummy)).result.error
      = Option.none := by
  have h := c10_spawn_success fi0 ⟨0, S "garbage(", []⟩ rDummy
  have h2 := h.2 rfl (by rfl)
  exact ⟨h.1, h2.1, h2.2⟩

/-- C5: the spawn-mode reconciler consults only the first (summary) run:
the whole result is independent of the second run; exit code 0 with a
validly encoded line parses back the value; non-zero exit with an
`ERROR:`-prefixed output takes the stripped text after the prefix as the
error; non-zero exit otherwise synthesizes a message from exit code and
standard error. -/
theorem c5_first_run_extraction (fi : FunctionInfo) (r1 r2 r2' : RunResult)
    (v : PyVal) :
    profile_full_python fi (SpawnEnv.completes r1 r2)
        = profile_full_python fi (SpawnEnv.completes r1 r2') ∧
    (r1.returncode = 0 → r1.stdout = encVal v ++ S "\n" →
      (profile_full_python fi (SpawnEnv.completes r1 r2)).result.function_result = v ∧
      (profile_full_python fi (SpawnEnv.completes r1 r2)).result.error
        = Option.none) ∧
    (r1.returncode ≠ 0 → startsWith (S "ERROR:") r1.stdout = true →
      (profile_full_python fi (SpawnEnv.completes r1 r2)).result.error
        = some (pyStrip (r1.stdout.drop 6))) ∧
    (r1.returncode ≠ 0 → startsWith (S "ERROR:") r1.stdout = false →
      (profile_full_python fi (SpawnEnv.completes r1 r2)).result.error
        = some (S "Process failed with exit code " ++ intEnc r1.returncode ++
            (if r1.stderr.isEmpty then [] else S ": " ++ r1.stderr))) := by
  refine ⟨rfl, ?_, ?_, ?_⟩
  · intro h0 hs
    exact spawn_decode_ok fi r1 r2 v h0 hs
  · intro h0 hstart
    have hne : r1.stdout ≠ [] := startsWith_ne_nil (by decide) hstart
    have hemp : r1.stdout.isEmpty = false := by
      cases h : r1.stdout with
      | nil => exact absurd h hne
      | cons c cs => rfl
    have hsplit := pySplitAfter_of_startsWith (S "ERROR:") r1.stdout hstart
    simp [profile_full_python, h0, hstart, hemp, hsplit,
      show (S "ERROR:").length = 6 from rfl]
  · intro h0 hstart
    simp [profile_full_python, h0, hstart]

/-- C5 witness: a valid encoded line on the first run. -/
theorem c5_first_run_extraction_witness :
    (profile_full_python fi0
        (SpawnEnv.completes ⟨0, encVal v0 ++ S "\n", []⟩ rDummy)).result.function_result
      = v0 ∧
    (profile_full_python fi0
        (SpawnEnv.completes ⟨0, encVal v0 ++ S "\n", []⟩ rDummy)).result.error
      = Option.none := by
  exact (c5_first_run_extraction fi0 ⟨0, encVal v0 ++ S "\n", []⟩ rDummy rDummy v0).2.1
    rfl rfl

/-- C7: when the workload handler returns a value, the spawn-mode result's
returned value equals it exactly — the textual encoding emitted by the
ephemeral script and the reconciler's decoding round-trip to an equal
structured value — and the fault message is null. -/
theorem c7_roundtrip (fi : FunctionInfo) (v : PyVal) (r2 : RunResult)
    (_hok : StrOkV v = true) :
    (profile_full_python fi
        (SpawnEnv.completes (script_run (HandlerOutcome.ret v)) r2)).result.function_result
      = v ∧
    (profile_full_python fi
        (SpawnEnv.completes (script_run (HandlerOutcome.ret v)) r2)).result.error
      = Option.none := by
  exact spawn_decode_ok fi (script_run (HandlerOutcome.ret v)) r2 v rfl rfl

/-- C7 witness at the mapping holding 42. -/
theorem c7_roundtrip_witness :
    StrOkV v0 = true ∧
    (profile_full_python fi0
        (SpawnEnv.completes (script_run (HandlerOutcome.ret v0)) rDummy)).result.function_result
      = v0 ∧
    (profile_full_python fi0
        (SpawnEnv.completes (script_run (HandlerOutcome.ret v0)) rDummy)).result.error
      = Option.none := by
  have hok : StrOkV v0 = true := by rfl
  have h := c7_roundtrip fi0 v0 rDummy hok
  exact ⟨hok, h.1, h.2⟩

/-- Every line of a detail block is either its header or an indented
content line starting with a space. -/
theorem mem_detail_block {x hdr : Str} {r : ProfileResult}
    (h : x ∈ detail_block hdr r) : x = hdr ∨ x.head? = some ' ' := by
  unfold detail_block at h
  rcases List.mem_append.mp h with h1 | h1
  · rcases List.mem_append.mp h1 with h2 | h2
    · rcases List.mem_cons.mp h2 with h3 | h3
      · exact Or.inl h3
      · rcases List.mem_singleton.mp (by simpa using h3) with h4
        subst h4
        exact Or.inr rfl
    · split at h2
      · simp at h2
      · rcases List.mem_singleton.mp h2 with h4
        subst h4
        exact Or.inr rfl
  · split at h1
    · rcases List.mem_singleton.mp h1 with h4
      subst h4
      exact Or.inr rfl
    · simp at h1

/-- C8 (amended): the terminal report is independent of the attach-summary
result (its block is commented out in the source); the attach-full and
spawn details are printed exactly when their success flag is true; and the
no-workload path lists the first five available workloads. -/
theorem c8_reporting (rs rs' rf fp : ProfileResult)
    (functions : List FunctionInfo) :
    main_report rs rf fp = main_report rs' rf fp ∧
    ((S "\nRuntime-only profiling (full):") ∈ main_report rs rf fp ↔
      rf.success = true) ∧
    ((S "\nFull Python profiling:") ∈ main_report rs rf fp ↔
      fp.success = true) ∧
    (∀ f ∈ functions.take 5,
      (S "  - " ++ f.name ++ S " (" ++ f.category ++ S ")")
        ∈ report_no_target functions) := by
  refine ⟨rfl, ?_, ?_, ?_⟩
  · constructor
    · intro h
      unfold main_report at h
      rcases List.mem_append.mp h with h1 | h1
      · rcases List.mem_append.mp h1 with h2 | h2
        · exact absurd (List.mem_singleton.mp h2) (by decide)
        · by_cases hrf : rf.success = true
          · exact hrf
          · rw [if_neg hrf] at h2
            simp at h2
      · by_cases hfp : fp.success = true
        · rw [if_pos hfp] at h1
          rcases mem_detail_block h1 with h2 | h2
          · exact absurd h2 (by decide)
          · exact absurd h2 (by decide)
        · rw [if_neg hfp] at h1
          simp at h1
    · intro h
      unfold main_report
      refine List.mem_append.mpr (Or.inl (List.mem_append.mpr (Or.inr ?_)))
      rw [if_pos h]
      unfold detail_block
      simp
  · constructor
    · intro h
      unfold main_report at h
      rcases List.mem_append.mp h with h1 | h1
      · rcases List.mem_append.mp h1 with h2 | h2
        · exact absurd (List.mem_singleton.mp h2) (by decide)
        · by_cases hrf : rf.success = true
          · rw [if_pos hrf] at h2
            rcases mem_detail_block h2 with h3 | h3
            · exact absurd h3 (by decide)
            · exact absurd h3 (by decide)
          · rw [if_neg hrf] at h2
            simp at h2
      · by_cases hfp : fp.success = true
        · exact hfp
        · rw [if_neg hfp] at h1
          simp at h1
    · intro h
      unfold main_report
      refine List.mem_append.mpr (Or.inr ?_)
      rw [if_pos h]
      unfold detail_block
      simp
  · intro f hf
    unfold report_no_target
    refine List.mem_append.mpr (Or.inr ?_)
    exact List.mem_map.mpr ⟨f, hf, rfl⟩

/-- C8 counterexample: a successful attach-summary result with a
printable value contributes nothing to the terminal report — the report
consists of the header alone, so its detail is not printed. -/
theorem c8_counterexample :
    rs1.success = true ∧ isNoneV rs1.function_result = false ∧
    main_report rs1 rf0 rf0 = [S "\n=== Final Results ==="] := by
  exact ⟨rfl, rfl, rfl⟩

/-- C8 witness: a successful attach-full detail is printed, and the
no-workload path lists an available workload. -/
theorem c8_reporting_witness :
    (S "\nRuntime-only profiling (full):") ∈ main_report rf0 rs1 rf0 ∧
    (S "  - " ++ fi0.name ++ S " (" ++ fi0.category ++ S ")")
      ∈ report_no_target [fi0] := by
  have h := c8_reporting rf0 rf0 rs1 rf0 [fi0]
  exact ⟨(h.2.1).mpr rfl, h.2.2.2 fi0 (List.mem_singleton.mpr rfl)⟩
